import Mathlib

/-!
Verification of the Kula development HTTP static file server (`serve.py`).

The program subclasses the platform's base file-serving request handler and
overrides two methods:

* `end_headers` (serve.py lines 12-22): before terminating the header block it
  sends three fixed CORS headers and, when the raw request path ends in `.js`
  or `.mjs`, an extra `Content-Type: application/javascript` header.
* `guess_type` (serve.py lines 24-29): calls the base extension-to-MIME lookup
  and then, for a path ending in `.js`, returns the pair
  `('application/javascript', None)` instead of the looked-up string.

We embed the response assembly as a trace of events (status line, headers in
wire order, end-of-headers terminator, body bytes).  Header names are treated
case-insensitively by the protocol; the model writes every name in its
canonical `Content-Type`-style capitalization.  The base file-serving routine
itself is not part of the repository; where its behaviour decides a claim it
is modelled from the specification, and each such definition is marked
`Modelled from the spec:` in its doc comment.
-/

/-- A header value as passed to `send_header`.  The base routine always passes
strings, but the overridden `guess_type` returns the pair
`('application/javascript', None)` for `.js` paths, and the base routine
writes whatever `guess_type` returned into its `Content-Type` header. -/
inductive HVal where
  | str (s : String)
  | pair (fst : String) (snd : Option String)
deriving DecidableEq

/-- One event of response assembly, in wire order: the status line, a header
line, the blank line terminating the header block, or a chunk of body bytes. -/
inductive Event where
  | status (code : Nat)
  | header (name : String) (value : HVal)
  | endOfHeaders
  | bodyChunk (bytes : List Nat)
deriving DecidableEq

/-- Python's `str.endswith(suffix)`: a case-sensitive suffix match. -/
def endswith (s suffix : String) : Bool :=
  suffix.data.isSuffixOf s.data

/-- Python's `str.startswith(pre)`: a case-sensitive prefix match. -/
def startswith (s pre : String) : Bool :=
  pre.data.isPrefixOf s.data

/-- Helper for `splitChar`: splits a character list at every occurrence of
`c`, threading the current piece in reverse. -/
def splitCharAux (c : Char) : List Char → List Char → List String
  | [], cur => [String.mk cur.reverse]
  | ch :: rest, cur =>
      if ch = c then String.mk cur.reverse :: splitCharAux c rest []
      else splitCharAux c rest (ch :: cur)

/-- Python's `str.split(sep)` for a one-character separator. -/
def splitChar (c : Char) (s : String) : List String :=
  splitCharAux c s.data []

/-- The bytes of a string, as natural numbers (the program only ever forms
bodies from ASCII text, where character codes and bytes coincide). -/
def bytesOf (s : String) : List Nat :=
  s.data.map (fun ch => ch.toNat)

/-- Overridden `end_headers` (serve.py lines 12-22): emits the three CORS
headers, then `Content-Type: application/javascript` when the raw request
path (`self.path`, which still carries any query string) ends in `.js` or
`.mjs`, then the base terminator (`super().end_headers()`). -/
def end_headers (rawPath : String) : List Event :=
  [Event.header "Access-Control-Allow-Origin" (HVal.str "*"),
   Event.header "Access-Control-Allow-Methods" (HVal.str "GET, POST, OPTIONS"),
   Event.header "Access-Control-Allow-Headers" (HVal.str "Content-Type")]
  ++ (if endswith rawPath ".js" then
        [Event.header "Content-Type" (HVal.str "application/javascript")]
      else if endswith rawPath ".mjs" then
        [Event.header "Content-Type" (HVal.str "application/javascript")]
      else [])
  ++ [Event.endOfHeaders]

/-- Overridden `guess_type` (serve.py lines 24-29): computes the base
extension-to-MIME lookup (`super().guess_type(path)`, a plain string), then
for a path ending in `.js` returns the pair `('application/javascript', None)`
and otherwise returns the base lookup unchanged.  `baseGuess` is the
platform's extension-to-MIME table lookup on the translated path. -/
def guess_type (baseGuess : String → String) (path : String) : HVal :=
  let mimetype := HVal.str (baseGuess path)
  if endswith path ".js" then HVal.pair "application/javascript" none
  else mimetype

/-- One step of posix path normalization, as performed on each component by
the normalization pass of the base routine's path translation: empty and `.`
components are dropped, `..` pops the previous component when one is
available (and is kept only when the path is relative and nothing is left to
pop, or follows an unpopped `..`), and any other component is appended. -/
def normStep (isAbs : Bool) (acc : List String) (comp : String) : List String :=
  if comp = "" || comp = "." then acc
  else if comp ≠ ".." then acc ++ [comp]
  else if (!isAbs && acc = []) || acc.getLast? = some ".." then acc ++ [comp]
  else acc.dropLast

/-- Modelled from the spec: the base file-serving routine's path translation
(the spec delegates URL decoding and "normalized to prevent traversal outside
the document root" to the underlying routine).  It discards the query string
and fragment, normalizes the path, then rebuilds the location under the
document root keeping only plain components — anything equal to `.` or `..`
is discarded rather than allowed to step outside the root.  URL percent
decoding is the identity on every path considered here and is omitted. -/
def translate_path (root : String) (rawPath : String) : String :=
  let noQuery := (splitChar '#' ((splitChar '?' rawPath).headD "")).headD ""
  let isAbs := startswith noQuery "/"
  let comps := (splitChar '/' noQuery).foldl (normStep isAbs) []
  let words := comps.filter (fun w => w ≠ "" && w ≠ "." && w ≠ "..")
  words.foldl (fun acc w => acc ++ "/" ++ w) root

/-- Result of looking a translated path up in the filesystem: no such file, a
file that exists but cannot be read, or a readable file with its bytes. -/
inductive FileResult where
  | missing
  | unreadable
  | file (content : List Nat)
deriving DecidableEq

/-- Immutable per-process configuration of the modelled server: the document
root, the platform MIME table lookup, and the strings used for the
informational `Server`, `Date` and `Last-Modified` headers. -/
structure Config where
  root : String
  baseGuess : String → String
  serverLine : String
  dateLine : String
  lastModified : String → String

/-- Modelled from the spec: `send_response` of the base routine emits the
status line followed by the standard `Server` and `Date` headers. -/
def send_response (cfg : Config) (code : Nat) : List Event :=
  [Event.status code,
   Event.header "Server" (HVal.str cfg.serverLine),
   Event.header "Date" (HVal.str cfg.dateLine)]

/-- Modelled from the spec: the short human-readable body of an error
response, naming the status. -/
def errorBody (code : Nat) (msg : String) : List Nat :=
  bytesOf ("Error " ++ toString code ++ ": " ++ msg)

/-- Modelled from the spec: the header events the base file-serving routine
emits before invoking the `end_headers` hook, paired with the body it writes
after the header block.  A readable file gives status 200 with
`Content-Type` set to whatever `guess_type` returned, `Content-Length` equal
to the exact byte count and a `Last-Modified` header; a missing file gives
the 404 error response and an unreadable file the 500 error response, both
with a short human-readable body and its `Content-Type`/`Content-Length`. -/
def base_response (cfg : Config) (fs : String → FileResult) (rawPath : String) :
    List Event × List Nat :=
  let path := translate_path cfg.root rawPath
  match fs path with
  | FileResult.file content =>
      (send_response cfg 200 ++
        [Event.header "Content-Type" (guess_type cfg.baseGuess path),
         Event.header "Content-Length" (HVal.str (toString content.length)),
         Event.header "Last-Modified" (HVal.str (cfg.lastModified path))],
       content)
  | FileResult.missing =>
      (send_response cfg 404 ++
        [Event.header "Connection" (HVal.str "close"),
         Event.header "Content-Type" (HVal.str "text/html;charset=utf-8"),
         Event.header "Content-Length"
           (HVal.str (toString (errorBody 404 "File not found").length))],
       errorBody 404 "File not found")
  | FileResult.unreadable =>
      (send_response cfg 500 ++
        [Event.header "Connection" (HVal.str "close"),
         Event.header "Content-Type" (HVal.str "text/html;charset=utf-8"),
         Event.header "Content-Length"
           (HVal.str (toString (errorBody 500 "Internal error").length))],
       errorBody 500 "Internal error")

/-- The full response trace for a GET of `rawPath`: the base routine's
headers, then the overridden `end_headers` hook (serve.py), then the body. -/
def handle (cfg : Config) (fs : String → FileResult) (rawPath : String) :
    List Event :=
  (base_response cfg fs rawPath).1 ++ end_headers rawPath ++
    [Event.bodyChunk (base_response cfg fs rawPath).2]

/-- The headers of a trace, in wire order. -/
def headersOf (tr : List Event) : List (String × HVal) :=
  tr.filterMap (fun e => match e with
    | Event.header n v => some (n, v)
    | _ => none)

/-- The values of all `Content-Type` headers of a trace, in wire order. -/
def contentTypes (tr : List Event) : List HVal :=
  (headersOf tr).filterMap (fun h => if h.1 = "Content-Type" then some h.2 else none)

/-- The status code of a trace (the first status event). -/
def statusOf (tr : List Event) : Option Nat :=
  tr.findSome? (fun e => match e with
    | Event.status c => some c
    | _ => none)

/-- The body of a trace: all body chunks concatenated. -/
def bodyOf (tr : List Event) : List Nat :=
  (tr.filterMap (fun e => match e with
    | Event.bodyChunk b => some b
    | _ => none)).flatten

/-- The three CORS headers with their fixed values, in the order
`end_headers` sends them. -/
def corsHeaders : List (String × HVal) :=
  [("Access-Control-Allow-Origin", HVal.str "*"),
   ("Access-Control-Allow-Methods", HVal.str "GET, POST, OPTIONS"),
   ("Access-Control-Allow-Headers", HVal.str "Content-Type")]

/-- Phase check: after the end-of-headers terminator no further status line
or header may appear. -/
def bodyPhaseOk : List Event → Bool
  | [] => true
  | Event.header _ _ :: _ => false
  | Event.status _ :: _ => false
  | Event.endOfHeaders :: rest => bodyPhaseOk rest
  | Event.bodyChunk _ :: rest => bodyPhaseOk rest

/-- Well-formedness of a trace: no body byte is emitted before the header
block is terminated, and no status line or header is added afterwards. -/
def headersBeforeBody : List Event → Bool
  | [] => true
  | Event.bodyChunk _ :: _ => false
  | Event.endOfHeaders :: rest => bodyPhaseOk rest
  | Event.status _ :: rest => headersBeforeBody rest
  | Event.header _ _ :: rest => headersBeforeBody rest

/-- A path lies under the document root when it is the root extended by plain
components, none of which is empty, `.` or `..`. -/
def underRoot (root q : String) : Prop :=
  ∃ ws : List String,
    (∀ w ∈ ws, w ≠ "" ∧ w ≠ "." ∧ w ≠ "..") ∧
    q = ws.foldl (fun acc w => acc ++ "/" ++ w) root

/-- The cross-request server state.  The program's only process-wide data are
the immutable configuration (document root, MIME table, port); the handler
instance created per connection is local to that request. -/
structure ServerState where
  cfg : Config

/-- One accepted connection: the server dispatches the request to a fresh
handler and hands back the (unchanged) server state.  Request handling reads
the filesystem but never writes it, so `fs` is passed unchanged too. -/
def handleConn (st : ServerState) (fs : String → FileResult) (rawPath : String) :
    List Event × ServerState :=
  (handle st.cfg fs rawPath, st)

/-- A concrete configuration used by witnesses and counterexamples. -/
def cfg0 : Config :=
  { root := "/srv/game",
    baseGuess := fun p =>
      if endswith p ".js" then "text/plain"
      else if endswith p ".mjs" then "application/javascript"
      else if endswith p ".css" then "text/css"
      else "application/octet-stream",
    serverLine := "SimpleHTTP",
    dateLine := "Sun, 12 Oct 2026 00:00:00 GMT",
    lastModified := fun _ => "Sun, 12 Oct 2026 00:00:00 GMT" }

/-- A concrete filesystem under the document root `/srv/game`, used by
witnesses and counterexamples.  It also contains a file at `etc/passwd`
inside the root, distinct from the system file `/etc/passwd`. -/
def fs0 : String → FileResult := fun p =>
  if p = "/srv/game/game.js" then FileResult.file (bytesOf "export default 1;")
  else if p = "/srv/game/app.mjs" then FileResult.file [101, 120, 112]
  else if p = "/srv/game/style.css" then FileResult.file [98, 111, 100, 121]
  else if p = "/srv/game/etc/passwd" then FileResult.file [42]
  else FileResult.missing

/-- The optional extra `Content-Type` header appended by `end_headers` when
the raw request path ends in `.js` or `.mjs`. -/
def ctExtra (rawPath : String) : List (String × HVal) :=
  if (endswith rawPath ".js" || endswith rawPath ".mjs") = true then
    [("Content-Type", HVal.str "application/javascript")]
  else []

lemma headersOf_append (a b : List Event) :
    headersOf (a ++ b) = headersOf a ++ headersOf b :=
  List.filterMap_append a b _

lemma headersOf_end_headers (rawPath : String) :
    headersOf (end_headers rawPath) = corsHeaders ++ ctExtra rawPath := by
  cases hjs : endswith rawPath ".js" <;>
    cases hmjs : endswith rawPath ".mjs" <;>
      simp [end_headers, headersOf, corsHeaders, ctExtra, hjs, hmjs]

lemma headersOf_handle (cfg : Config) (fs : String → FileResult) (rawPath : String) :
    headersOf (handle cfg fs rawPath) =
      headersOf (base_response cfg fs rawPath).1 ++ corsHeaders ++ ctExtra rawPath := by
  unfold handle
  rw [headersOf_append, headersOf_append, headersOf_end_headers]
  simp [headersOf]

lemma bodyOf_handle (cfg : Config) (fs : String → FileResult) (rawPath : String) :
    bodyOf (handle cfg fs rawPath) = (base_response cfg fs rawPath).2 := by
  cases hfs : fs (translate_path cfg.root rawPath) <;>
    cases hjs : endswith rawPath ".js" <;>
      cases hmjs : endswith rawPath ".mjs" <;>
        simp [handle, base_response, end_headers, send_response, bodyOf, hfs, hjs, hmjs]

lemma statusOf_handle_file (cfg : Config) (fs : String → FileResult) (rawPath : String)
    (content : List Nat)
    (hfs : fs (translate_path cfg.root rawPath) = FileResult.file content) :
    statusOf (handle cfg fs rawPath) = some 200 := by
  simp [handle, base_response, send_response, statusOf, hfs, List.findSome?]

lemma statusOf_handle_missing (cfg : Config) (fs : String → FileResult) (rawPath : String)
    (hfs : fs (translate_path cfg.root rawPath) = FileResult.missing) :
    statusOf (handle cfg fs rawPath) = some 404 := by
  simp [handle, base_response, send_response, statusOf, hfs, List.findSome?]

lemma statusOf_handle_unreadable (cfg : Config) (fs : String → FileResult) (rawPath : String)
    (hfs : fs (translate_path cfg.root rawPath) = FileResult.unreadable) :
    statusOf (handle cfg fs rawPath) = some 500 := by
  simp [handle, base_response, send_response, statusOf, hfs, List.findSome?]

lemma contentLength_handle_file (cfg : Config) (fs : String → FileResult) (rawPath : String)
    (content : List Nat)
    (hfs : fs (translate_path cfg.root rawPath) = FileResult.file content) :
    ("Content-Length", HVal.str (toString content.length)) ∈ headersOf (handle cfg fs rawPath) := by
  rw [headersOf_handle]
  simp [base_response, send_response, headersOf, hfs]

lemma contentTypes_handle (cfg : Config) (fs : String → FileResult) (rawPath : String) :
    contentTypes (handle cfg fs rawPath) =
      contentTypes (base_response cfg fs rawPath).1 ++ (ctExtra rawPath).map Prod.snd := by
  unfold contentTypes
  rw [headersOf_handle, List.filterMap_append, List.filterMap_append]
  cases hjs : endswith rawPath ".js" <;> cases hmjs : endswith rawPath ".mjs" <;>
    simp [corsHeaders, ctExtra, hjs, hmjs]

lemma contentTypes_base_file (cfg : Config) (fs : String → FileResult) (rawPath : String)
    (content : List Nat)
    (hfs : fs (translate_path cfg.root rawPath) = FileResult.file content) :
    contentTypes (base_response cfg fs rawPath).1 =
      [guess_type cfg.baseGuess (translate_path cfg.root rawPath)] := by
  simp [base_response, send_response, contentTypes, headersOf, hfs]

lemma contentTypes_base_error (cfg : Config) (fs : String → FileResult) (rawPath : String)
    (hfs : fs (translate_path cfg.root rawPath) = FileResult.missing ∨
           fs (translate_path cfg.root rawPath) = FileResult.unreadable) :
    contentTypes (base_response cfg fs rawPath).1 = [HVal.str "text/html;charset=utf-8"] := by
  rcases hfs with hfs | hfs <;>
    simp [base_response, send_response, contentTypes, headersOf, hfs]

lemma underRoot_of_filter (root : String) (l : List String) :
    underRoot root
      ((l.filter (fun w => w ≠ "" && w ≠ "." && w ≠ "..")).foldl
        (fun acc w => acc ++ "/" ++ w) root) := by
  refine ⟨_, ?_, rfl⟩
  intro w hw
  have hp := List.of_mem_filter hw
  simp only [Bool.and_eq_true, decide_eq_true_eq, ne_eq] at hp
  exact ⟨hp.1.1, hp.1.2, hp.2⟩

lemma underRoot_translate (root rawPath : String) :
    underRoot root (translate_path root rawPath) := by
  simp only [translate_path]
  exact underRoot_of_filter root _

/-- C2: every outgoing response of the handler, regardless of status code
(200, 404 and 500 responses all arise from some `fs`), carries the three
CORS headers `Access-Control-Allow-Origin: *`,
`Access-Control-Allow-Methods: GET, POST, OPTIONS` and
`Access-Control-Allow-Headers: Content-Type` with exactly those values, and
they appear after every header the base file-serving logic already set; the
only headers following them are the optional appended `Content-Type`. -/
theorem cors_headers_on_every_response (cfg : Config) (fs : String → FileResult)
    (rawPath : String) :
    headersOf (handle cfg fs rawPath) =
      headersOf (base_response cfg fs rawPath).1 ++ corsHeaders ++ ctExtra rawPath ∧
    (ctExtra rawPath = [] ∨
      ctExtra rawPath = [("Content-Type", HVal.str "application/javascript")]) ∧
    corsHeaders =
      [("Access-Control-Allow-Origin", HVal.str "*"),
       ("Access-Control-Allow-Methods", HVal.str "GET, POST, OPTIONS"),
       ("Access-Control-Allow-Headers", HVal.str "Content-Type")] := by
  refine ⟨headersOf_handle cfg fs rawPath, ?_, rfl⟩
  unfold ctExtra
  split
  · exact Or.inr rfl
  · exact Or.inl rfl

/-- C3: a request whose translated path names an existing readable file is
answered with status 200, a body equal to the file's exact bytes, and a
`Content-Length` header equal to the exact byte count of that content. -/
theorem existing_file_200_exact_body (cfg : Config) (fs : String → FileResult)
    (rawPath : String) (content : List Nat)
    (hfs : fs (translate_path cfg.root rawPath) = FileResult.file content) :
    statusOf (handle cfg fs rawPath) = some 200 ∧
    bodyOf (handle cfg fs rawPath) = content ∧
    ("Content-Length", HVal.str (toString content.length)) ∈
      headersOf (handle cfg fs rawPath) := by
  refine ⟨statusOf_handle_file cfg fs rawPath content hfs, ?_,
    contentLength_handle_file cfg fs rawPath content hfs⟩
  rw [bodyOf_handle]
  simp [base_response, hfs]

/-- Witness for C3 at the end-to-end scenario of the spec: GET `/game.js`
where the file holds the bytes of `"export default 1;"`. -/
theorem existing_file_200_exact_body_witness :
    statusOf (handle cfg0 fs0 "/game.js") = some 200 ∧
    bodyOf (handle cfg0 fs0 "/game.js") = bytesOf "export default 1;" ∧
    ("Content-Length", HVal.str (toString (bytesOf "export default 1;").length)) ∈
      headersOf (handle cfg0 fs0 "/game.js") :=
  existing_file_200_exact_body cfg0 fs0 "/game.js" (bytesOf "export default 1;") (by decide)

/-- C4: a request whose translated path names no file is answered with
status 404 and a short human-readable body naming the status; the CORS
headers are still added after the base headers and the type-decoration rule
still applies (a raw path ending in `.js`/`.mjs` still gets the appended
`Content-Type: application/javascript`). -/
theorem missing_file_404_decorated (cfg : Config) (fs : String → FileResult)
    (rawPath : String)
    (hfs : fs (translate_path cfg.root rawPath) = FileResult.missing) :
    statusOf (handle cfg fs rawPath) = some 404 ∧
    bodyOf (handle cfg fs rawPath) = errorBody 404 "File not found" ∧
    headersOf (handle cfg fs rawPath) =
      headersOf (base_response cfg fs rawPath).1 ++ corsHeaders ++ ctExtra rawPath ∧
    ((endswith rawPath ".js" || endswith rawPath ".mjs") = true →
      ("Content-Type", HVal.str "application/javascript") ∈
        headersOf (handle cfg fs rawPath)) := by
  refine ⟨statusOf_handle_missing cfg fs rawPath hfs, ?_,
    headersOf_handle cfg fs rawPath, ?_⟩
  · rw [bodyOf_handle]
    simp [base_response, hfs]
  · intro h
    rw [headersOf_handle]
    simp [ctExtra, h]

/-- Witness for C4: GET `/missing.js`, a missing file whose raw path ends in
`.js`, gets status 404, the short error body, and still the appended
JavaScript `Content-Type`. -/
theorem missing_file_404_decorated_witness :
    statusOf (handle cfg0 fs0 "/missing.js") = some 404 ∧
    bodyOf (handle cfg0 fs0 "/missing.js") = errorBody 404 "File not found" ∧
    ("Content-Type", HVal.str "application/javascript") ∈
      headersOf (handle cfg0 fs0 "/missing.js") :=
  ⟨(missing_file_404_decorated cfg0 fs0 "/missing.js" (by decide)).1,
   (missing_file_404_decorated cfg0 fs0 "/missing.js" (by decide)).2.1,
   (missing_file_404_decorated cfg0 fs0 "/missing.js" (by decide)).2.2.2 (by decide)⟩

/-- C10: in every response trace, all headers are assembled before any body
byte: no body chunk occurs before the end-of-headers terminator, and no
status line or header occurs after it. -/
theorem headers_assembled_before_body (cfg : Config) (fs : String → FileResult)
    (rawPath : String) :
    headersBeforeBody (handle cfg fs rawPath) = true := by
  cases hfs : fs (translate_path cfg.root rawPath) <;>
    cases hjs : endswith rawPath ".js" <;>
      cases hmjs : endswith rawPath ".mjs" <;>
        simp [handle, base_response, end_headers, send_response,
          headersBeforeBody, bodyPhaseOk, hfs, hjs, hmjs]

/-- C6: handling a request leaves the server state unchanged, and repeating
the identical GET against the unchanged state and the same filesystem yields
the very same trace: byte-identical body and identical headers (hence
identical `Content-Length`). -/
theorem repeated_get_identical (st : ServerState) (fs : String → FileResult)
    (rawPath : String) :
    (handleConn st fs rawPath).2 = st ∧
    (handleConn (handleConn st fs rawPath).2 fs rawPath).1 =
      (handleConn st fs rawPath).1 ∧
    bodyOf (handleConn (handleConn st fs rawPath).2 fs rawPath).1 =
      bodyOf (handleConn st fs rawPath).1 ∧
    headersOf (handleConn (handleConn st fs rawPath).2 fs rawPath).1 =
      headersOf (handleConn st fs rawPath).1 :=
  ⟨rfl, rfl, rfl, rfl⟩

/-- C7: whenever the raw request path ends in `.js` or `.mjs`, `end_headers`
appends an additional `Content-Type: application/javascript` header after
the one the base file-serving logic already set — on every status (the
claim holds for any `fs`, hence for 200, 404 and 500 responses alike) — so
the response carries two `Content-Type` headers rather than a single
overridden one. -/
theorem end_headers_appends_second_content_type (cfg : Config)
    (fs : String → FileResult) (rawPath : String)
    (h : (endswith rawPath ".js" || endswith rawPath ".mjs") = true) :
    contentTypes (handle cfg fs rawPath) =
      contentTypes (base_response cfg fs rawPath).1 ++
        [HVal.str "application/javascript"] ∧
    (contentTypes (base_response cfg fs rawPath).1).length = 1 ∧
    (contentTypes (handle cfg fs rawPath)).length = 2 := by
  have hmain : contentTypes (handle cfg fs rawPath) =
      contentTypes (base_response cfg fs rawPath).1 ++
        [HVal.str "application/javascript"] := by
    rw [contentTypes_handle]
    simp [ctExtra, h]
  have hbase : (contentTypes (base_response cfg fs rawPath).1).length = 1 := by
    cases hfs : fs (translate_path cfg.root rawPath)
    · rw [contentTypes_base_error cfg fs rawPath (Or.inl hfs)]
      rfl
    · rw [contentTypes_base_error cfg fs rawPath (Or.inr hfs)]
      rfl
    · rw [contentTypes_base_file cfg fs rawPath _ hfs]
      rfl
  refine ⟨hmain, hbase, ?_⟩
  rw [hmain, List.length_append, hbase]
  rfl

/-- Witness for C7 at a 404 response: the missing file `/missing.js` still
receives the appended second `Content-Type`. -/
theorem end_headers_appends_second_content_type_witness :
    contentTypes (handle cfg0 fs0 "/missing.js") =
      contentTypes (base_response cfg0 fs0 "/missing.js").1 ++
        [HVal.str "application/javascript"] ∧
    (contentTypes (base_response cfg0 fs0 "/missing.js").1).length = 1 ∧
    (contentTypes (handle cfg0 fs0 "/missing.js")).length = 2 :=
  end_headers_appends_second_content_type cfg0 fs0 "/missing.js" (by decide)

/-- C8: for a path ending in `.js`, `guess_type` returns the pair
`('application/javascript', None)`, while for every other path it returns
the bare string of the base lookup; consequently, the value the base
file-serving routine writes into its own `Content-Type` header for an
existing `.js` file is that pair, not the string. -/
theorem guess_type_returns_pair_for_js (cfg : Config) (fs : String → FileResult)
    (rawPath : String) :
    (endswith (translate_path cfg.root rawPath) ".js" = true →
      guess_type cfg.baseGuess (translate_path cfg.root rawPath) =
        HVal.pair "application/javascript" none) ∧
    (endswith (translate_path cfg.root rawPath) ".js" = false →
      guess_type cfg.baseGuess (translate_path cfg.root rawPath) =
        HVal.str (cfg.baseGuess (translate_path cfg.root rawPath))) ∧
    (∀ content, fs (translate_path cfg.root rawPath) = FileResult.file content →
      endswith (translate_path cfg.root rawPath) ".js" = true →
      contentTypes (base_response cfg fs rawPath).1 =
        [HVal.pair "application/javascript" none]) := by
  refine ⟨fun h => by simp [guess_type, h], fun h => by simp [guess_type, h], ?_⟩
  intro content hfs hjs
  rw [contentTypes_base_file cfg fs rawPath content hfs]
  simp [guess_type, hjs]

/-- Witness for C8: the `Content-Type` header the base routine sets for the
existing file `/game.js` holds the pair, not a string. -/
theorem guess_type_returns_pair_for_js_witness :
    contentTypes (base_response cfg0 fs0 "/game.js").1 =
      [HVal.pair "application/javascript" none] :=
  (guess_type_returns_pair_for_js cfg0 fs0 "/game.js").2.2
    (bytesOf "export default 1;") (by decide) (by decide)

/-- C9: `end_headers` tests the raw request path, query string included, so
for a raw path ending in neither `.js` nor `.mjs` (such as `/app.mjs?v=1`)
no `application/javascript` header is appended; and since `guess_type`
overrides only paths ending in `.js`, such a `.mjs` request is served with
the platform MIME table's `Content-Type` alone. -/
theorem query_string_defeats_js_override (cfg : Config) (fs : String → FileResult)
    (rawPath : String)
    (hjs : endswith rawPath ".js" = false) (hmjs : endswith rawPath ".mjs" = false) :
    headersOf (end_headers rawPath) = corsHeaders ∧
    (∀ content, fs (translate_path cfg.root rawPath) = FileResult.file content →
      endswith (translate_path cfg.root rawPath) ".js" = false →
      contentTypes (handle cfg fs rawPath) =
        [HVal.str (cfg.baseGuess (translate_path cfg.root rawPath))]) := by
  constructor
  · rw [headersOf_end_headers]
    simp [ctExtra, hjs, hmjs]
  · intro content hfs hpjs
    rw [contentTypes_handle, contentTypes_base_file cfg fs rawPath content hfs]
    simp [ctExtra, hjs, hmjs, guess_type, hpjs]

/-- Witness for C9 at `/app.mjs?v=1`: the existing file `app.mjs` requested
with a query string gets only the MIME table's `Content-Type`. -/
theorem query_string_defeats_js_override_witness :
    contentTypes (handle cfg0 fs0 "/app.mjs?v=1") =
      [HVal.str (cfg0.baseGuess (translate_path cfg0.root "/app.mjs?v=1"))] :=
  (query_string_defeats_js_override cfg0 fs0 "/app.mjs?v=1" (by decide) (by decide)).2
    [101, 120, 112] (by decide) (by decide)

/-- Counterexample to C1 as stated: GET `/game.js` against a MIME table whose
generic lookup for `.js` is `text/plain`.  The claim says the response's
`Content-Type` is the single fixed value `application/javascript`; in fact
the response carries two `Content-Type` headers — the one the base routine
set from `guess_type`, which is the pair `('application/javascript', None)`,
followed by the string appended by `end_headers` — so it is not the single
fixed string value. -/
theorem js_single_content_type_counterexample :
    contentTypes (handle cfg0 fs0 "/game.js") =
      [HVal.pair "application/javascript" none, HVal.str "application/javascript"] ∧
    contentTypes (handle cfg0 fs0 "/game.js") ≠
      [HVal.str "application/javascript"] := by
  decide

/-- C1 amended: for a raw request path ending in `.js` or `.mjs`, the last
`Content-Type` header of the response is the fixed string
`application/javascript` (appended by `end_headers`); the `Content-Type` the
base routine set is not replaced and remains in the response.  For a request
whose raw path ends in neither and whose translated path does not end in
`.js`, the sole `Content-Type` of an existing-file response is the platform
MIME table's entry for the path. -/
theorem js_content_type_appended_last (cfg : Config) (fs : String → FileResult)
    (rawPath : String) :
    ((endswith rawPath ".js" || endswith rawPath ".mjs") = true →
      (contentTypes (handle cfg fs rawPath)).getLast? =
        some (HVal.str "application/javascript")) ∧
    ((endswith rawPath ".js" || endswith rawPath ".mjs") = false →
      endswith (translate_path cfg.root rawPath) ".js" = false →
      ∀ content, fs (translate_path cfg.root rawPath) = FileResult.file content →
        contentTypes (handle cfg fs rawPath) =
          [HVal.str (cfg.baseGuess (translate_path cfg.root rawPath))]) := by
  constructor
  · intro h
    rw [contentTypes_handle]
    simp [ctExtra, h]
  · intro h hpjs content hfs
    rw [contentTypes_handle, contentTypes_base_file cfg fs rawPath content hfs]
    simp [ctExtra, h, guess_type, hpjs]

/-- Witness for the amended C1: for GET `/game.js` the last `Content-Type`
header is the fixed string, and for GET `/style.css` the sole `Content-Type`
is the MIME table's entry. -/
theorem js_content_type_appended_last_witness :
    (contentTypes (handle cfg0 fs0 "/game.js")).getLast? =
      some (HVal.str "application/javascript") ∧
    contentTypes (handle cfg0 fs0 "/style.css") =
      [HVal.str (cfg0.baseGuess (translate_path cfg0.root "/style.css"))] :=
  ⟨(js_content_type_appended_last cfg0 fs0 "/game.js").1 (by decide),
   (js_content_type_appended_last cfg0 fs0 "/style.css").2 (by decide) (by decide)
     [98, 111, 100, 121] (by decide)⟩

/-- Counterexample to C5 as stated: the claim says a request using traversal
sequences to name a file outside the document root is answered 403 or 404
and never 200.  The base routine instead silently discards `.` and `..`
components, remapping the request inside the root: with a file present at
`<root>/etc/passwd`, GET `/../../etc/passwd` is answered 200 (serving that
in-root file), neither 403 nor 404. -/
theorem traversal_200_counterexample :
    statusOf (handle cfg0 fs0 "/../../etc/passwd") = some 200 ∧
    ¬ (statusOf (handle cfg0 fs0 "/../../etc/passwd") = some 403 ∨
       statusOf (handle cfg0 fs0 "/../../etc/passwd") = some 404) := by
  decide

/-- C5 amended: traversal sequences never reach outside the document root,
because path translation discards `.` and `..` components: every translated
path lies under the root.  Hence no file outside the root is ever served — a
200 response always carries the bytes of the in-root file at the translated
path — and when no in-root file corresponds to the stripped path the status
is 404 (not necessarily 403/404-never-200 for the raw traversal path: if the
stripped path names an existing in-root file the status is 200). -/
theorem traversal_confined_to_root (cfg : Config) (fs : String → FileResult)
    (rawPath : String) :
    underRoot cfg.root (translate_path cfg.root rawPath) ∧
    (statusOf (handle cfg fs rawPath) = some 200 →
      ∃ content, fs (translate_path cfg.root rawPath) = FileResult.file content ∧
        bodyOf (handle cfg fs rawPath) = content) ∧
    (fs (translate_path cfg.root rawPath) = FileResult.missing →
      statusOf (handle cfg fs rawPath) = some 404) := by
  refine ⟨underRoot_translate cfg.root rawPath, ?_,
    statusOf_handle_missing cfg fs rawPath⟩
  intro h200
  cases hfs : fs (translate_path cfg.root rawPath) with
  | missing =>
      rw [statusOf_handle_missing cfg fs rawPath hfs] at h200
      simp at h200
  | unreadable =>
      rw [statusOf_handle_unreadable cfg fs rawPath hfs] at h200
      simp at h200
  | file content =>
      refine ⟨content, rfl, ?_⟩
      rw [bodyOf_handle]
      simp [base_response, hfs]

/-- Witness for the amended C5: the traversal request `/../../secret.txt` is
remapped under the root, where no file exists, and is answered 404. -/
theorem traversal_confined_to_root_witness :
    statusOf (handle cfg0 fs0 "/../../secret.txt") = some 404 :=
  (traversal_confined_to_root cfg0 fs0 "/../../secret.txt").2.2 (by decide)
